import Mathlib

/-!
Shallow embedding of the MCP stdio-to-HTTP bridge (`src/server.py`).

The bridge correlates JSON-RPC requests sent to a child process's stdin with
replies read line-by-line from its stdout, and fans every stdout line out to
SSE subscriber queues.  The embedding below models:

* `PyVal` / `pyEq`   — the Python values that can appear as the JSON-RPC `id`
  field, with Python's `==` / dict-key equality (numeric types coerce:
  `1 == 1.0 == True`; strings never equal numbers);
* `JObj`             — a parsed JSON object, as far as the bridge inspects it
  (a flat field list; the bridge only ever reads the `"id"` field and passes
  the whole object through);
* `FutureState`      — an `asyncio.Future` one-shot result slot;
* `BridgeState`      — the state of one `MCPProcess` instance:
  the child-process handle (`ProcState`), the heap of future objects, the
  `response_futures` dict (Correlation Table), and the `sse_queues` list;
* `dispatchResponse` — `MCPProcess._dispatch_response` (server.py:149-173),
  parameterized over a parse function standing for `json.loads`;
* `eofCleanup`       — the cleanup block at the end of
  `MCPProcess._read_loop` (server.py:143-147);
* `registerStep` / `writeStep` / `sendRequestStart` / `awaitOutcome` /
  `runRequest`       — the phases of `MCPProcess.send_request`
  (server.py:175-206), with the environment's behaviour (did the stdin
  write succeed; which stdout lines arrived before the 30 s timeout)
  passed in as parameters;
* `sendMessage`      — `MCPProcess.send_message` (server.py:208-220);
* `stop` / `healthCheck` — `MCPProcess.stop` (server.py:115-125) and the
  `/health` probe (server.py:278-282);
* `verify_token`     — the bearer-token check (server.py:27-30).
-/

namespace MCPProxy

/-- Python values that can occur as a JSON-RPC `id` after `json.loads`:
`null`, booleans, integers, floats (modelled as exact rationals, faithful for
every float the JSON parser can produce on the inputs we consider), strings. -/
inductive PyVal where
  | pynull : PyVal
  | pybool : Bool → PyVal
  | pyint : Int → PyVal
  | pyfloat : ℚ → PyVal
  | pystr : String → PyVal
deriving DecidableEq

/-- The numeric value of a Python number, if the value is numeric.  In Python,
`bool` is a subtype of `int` (`True == 1`), and `int`/`float` compare by exact
numeric value. -/
def PyVal.numVal : PyVal → Option ℚ
  | .pybool b => some (if b then 1 else 0)
  | .pyint n => some (n : ℚ)
  | .pyfloat q => some q
  | _ => none

/-- Python `==` on id values, which is also the equality used by `dict` key
lookup in `response_futures`: numbers compare by value across `bool`/`int`/
`float`; strings compare as strings; `None == None`; everything else is
unequal. -/
def pyEq (a b : PyVal) : Bool :=
  match a.numVal, b.numVal with
  | some x, some y => x == y
  | _, _ =>
    match a, b with
    | .pystr s, .pystr t => s == t
    | .pynull, .pynull => true
    | _, _ => false

/-- A parsed JSON object, as far as the bridge inspects it.  The bridge only
reads the `"id"` field and otherwise passes the object through verbatim, so a
flat field list (field name, value) suffices. -/
structure JObj where
  fields : List (String × PyVal)
deriving DecidableEq

/-- `"id" in response_json` / `response_json["id"]` (server.py:158-159): the
value of the first `"id"` field, if the object has one. -/
def JObj.getId (o : JObj) : Option PyVal :=
  (o.fields.find? (fun p => p.1 == "id")).map (fun p => p.2)

/-- `request_data.get("id")` (server.py:179).  Python's `.get` returns `None`
both when the key is absent and when its value is JSON `null`, and
`should_wait = request_id is not None`, so an explicit `null` id is
indistinguishable from a missing one on the send path. -/
def JObj.reqId (o : JObj) : Option PyVal :=
  match o.getId with
  | some .pynull => none
  | r => r

/-- State of an `asyncio.Future`: pending, fulfilled with a parsed object
(`set_result`), or fulfilled with an exception (`set_exception`). -/
inductive FutureState where
  | pendingF : FutureState
  | resultF : JObj → FutureState
  | errorF : String → FutureState
deriving DecidableEq

/-- `future.done()`. -/
def FutureState.done : FutureState → Bool
  | .pendingF => false
  | _ => true

/-- The child process handle (`self.process`): `notStarted` models
`self.process is None`, `running`/`exited` model a `Popen` object whose
`poll()` returns `None` / the exit code. -/
inductive ProcState where
  | notStarted : ProcState
  | running : Nat → ProcState
  | exited : Nat → Int → ProcState
deriving DecidableEq

/-- Truthiness of `self.process` (a `Popen` object is always truthy). -/
def ProcState.isSet : ProcState → Bool
  | .notStarted => false
  | _ => true

/-- `self.process.poll()`: `none` while running, the exit code once exited.
Never consulted on `notStarted` (the callers guard with `if self.process`). -/
def ProcState.poll : ProcState → Option Int
  | .notStarted => none
  | .running _ => none
  | .exited _ c => some c

/-- The state of one `MCPProcess` instance (server.py:86-92):
`futures` is a heap of future objects addressed by token (several variables
may alias one future object), `table` is the `response_futures` dict mapping
an id to the future object it holds, `queues` is `sse_queues`, and `nextTok`
is a fresh-token counter for allocating future objects. -/
structure BridgeState where
  proc : ProcState
  futures : List (Nat × FutureState)
  table : List (PyVal × Nat)
  queues : List (List String)
  nextTok : Nat
deriving DecidableEq

/-- Dict key lookup `d[k]` / membership `k in d`, using Python `==` on keys:
the value under the first key equal to `k`. -/
def tblLookup (t : List (PyVal × Nat)) (k : PyVal) : Option Nat :=
  (t.find? (fun p => pyEq p.1 k)).map (fun p => p.2)

/-- Dict assignment `d[k] = v`: if a key equal to `k` is present its value is
replaced (the stored key object is kept), otherwise the pair is appended. -/
def tblInsert (t : List (PyVal × Nat)) (k : PyVal) (v : Nat) : List (PyVal × Nat) :=
  if t.any (fun p => pyEq p.1 k) then
    t.map (fun p => if pyEq p.1 k then (p.1, v) else p)
  else
    t ++ [(k, v)]

/-- Dict deletion `d.pop(k)` / `del d[k]`: removes the entry whose key equals
`k` (a Python dict holds at most one such entry). -/
def tblRemove (t : List (PyVal × Nat)) (k : PyVal) : List (PyVal × Nat) :=
  t.filter (fun p => !(pyEq p.1 k))

/-- Dereference a future token in the heap. -/
def heapGet (h : List (Nat × FutureState)) (tok : Nat) : Option FutureState :=
  (h.find? (fun p => p.1 == tok)).map (fun p => p.2)

/-- Overwrite the state of the future object addressed by `tok`
(`set_result` / `set_exception` mutate the shared object in place). -/
def heapSet (h : List (Nat × FutureState)) (tok : Nat) (v : FutureState) :
    List (Nat × FutureState) :=
  h.map (fun p => if p.1 == tok then (p.1, v) else p)

/-- Python `str.isspace` for a single character (the set `str.strip()`
removes: space, tab, newline, carriage return, vertical tab, form feed). -/
def pySpace (c : Char) : Bool :=
  c == ' ' || c == '\t' || c == '\n' || c == '\x0d' || c == '\x0b' || c == '\x0c'

/-- Python `line.strip()`: drop whitespace from both ends. -/
def pyStrip (s : String) : String :=
  ⟨(((s.data.dropWhile pySpace).reverse.dropWhile pySpace).reverse)⟩

/-- The SSE wire form of one stdout line: `f"data: \x7bline.strip()\x7d\n\n"`
(server.py:154). -/
def wireLine (line : String) : String :=
  "data: " ++ pyStrip line ++ "\n\n"

/-- Step 1 of `_dispatch_response` (server.py:152-154): put the wire form of
the line on every SSE queue.  This happens before the JSON parse is attempted. -/
def putQueues (line : String) (st : BridgeState) : BridgeState :=
  { st with queues := st.queues.map (fun q => q ++ [wireLine line]) }

/-- `MCPProcess._dispatch_response` (server.py:149-173).  `parse` stands for
`json.loads` restricted to object results: `none` covers both a
`JSONDecodeError` and a parse to a non-object (both only log; the structure
update below is identical).  Order mirrors the source: SSE fan-out first,
then parse, then id lookup, `pop`, and `set_result` if the future is not
yet done. -/
def dispatchResponse (parse : String → Option JObj) (line : String)
    (st : BridgeState) : BridgeState :=
  let st1 := putQueues line st
  match parse line with
  | none => st1
  | some obj =>
    match obj.getId with
    | none => st1
    | some reqId =>
      match tblLookup st1.table reqId with
      | none => st1
      | some tok =>
        let st2 := { st1 with table := tblRemove st1.table reqId }
        match heapGet st2.futures tok with
        | some .pendingF =>
          { st2 with futures := heapSet st2.futures tok (.resultF obj) }
        | _ => st2

/-- The cleanup block at the end of `MCPProcess._read_loop`
(server.py:143-147): for every future still held in `response_futures`, if it
is not done, fulfill it with `Exception("MCP process exited")`.  The source
does not remove any entry from `response_futures`. -/
def eofCleanup (st : BridgeState) : BridgeState :=
  { st with futures := st.futures.map (fun p =>
      if st.table.any (fun e => e.2 == p.1) && !(FutureState.done p.2) then
        (p.1, .errorF "MCP process exited")
      else p) }

/-- Observable outcome of an HTTP call into the bridge. -/
inductive SendOutcome where
  | httpError : Nat → String → SendOutcome
  | replyObj : JObj → SendOutcome
  | notificationSent : SendOutcome
  | uncaught : String → SendOutcome
deriving DecidableEq

/-- Where `send_request` stands after the register and write phases
(server.py:176-195): failed with an `HTTPException`, waiting on a registered
future, or fire-and-forget (no id). -/
inductive SendProgress where
  | failed : Nat → String → SendProgress
  | awaiting : Nat → PyVal → SendProgress
  | fireAndForget : SendProgress
deriving DecidableEq

/-- Execution-order events of the register and write phases of
`send_request`, recorded to state ordering properties. -/
inductive SendEvent where
  | registered : PyVal → SendEvent
  | wrote : SendEvent
  | writeFailed : SendEvent
  | removedEntry : PyVal → SendEvent
deriving DecidableEq

/-- Result of the register and write phases of `send_request`. -/
structure SendStart where
  st : BridgeState
  prog : SendProgress
  trace : List SendEvent
deriving DecidableEq

/-- Registration phase of `send_request` (server.py:179-185): if the request
carries an id, create a fresh future and store it in `response_futures`
under that id (plain dict assignment — an existing entry is overwritten). -/
def registerStep (req : JObj) (st : BridgeState) : BridgeState × Option (PyVal × Nat) :=
  match req.reqId with
  | none => (st, none)
  | some rid =>
    ({ st with
        futures := st.futures ++ [(st.nextTok, .pendingF)],
        table := tblInsert st.table rid st.nextTok,
        nextTok := st.nextTok + 1 }, some (rid, st.nextTok))

/-- Write phase of `send_request` (server.py:187-195), applied to the state
left by `registerStep`.  `writeOk` is the environment: whether
`stdin.write`/`flush` succeed.  On failure the just-registered entry is
deleted and an `HTTPException(500)` is raised. -/
def writeStep (writeOk : Bool) (reg : Option (PyVal × Nat)) (st : BridgeState) :
    SendStart :=
  match reg with
  | none =>
    if writeOk then ⟨st, .fireAndForget, [.wrote]⟩
    else ⟨st, .failed 500 "write failed", [.writeFailed]⟩
  | some (rid, tok) =>
    if writeOk then ⟨st, .awaiting tok rid, [.registered rid, .wrote]⟩
    else
      ⟨{ st with table := tblRemove st.table rid },
        .failed 500 "write failed",
        [.registered rid, .writeFailed, .removedEntry rid]⟩

/-- Register and write phases of `send_request` (server.py:175-195): the
`if not self.process` guard, then registration, then the locked write. -/
def sendRequestStart (writeOk : Bool) (req : JObj) (st : BridgeState) : SendStart :=
  if st.proc.isSet then
    let (st1, reg) := registerStep req st
    writeStep writeOk reg st1
  else
    ⟨st, .failed 500 "MCP backend not running", []⟩

/-- Await phase of `send_request` (server.py:197-206), evaluated after the
reader loop has processed whatever lines arrived within the 30 s window:
a fulfilled future returns its object; a future fulfilled with an exception
re-raises it out of `await` (uncaught by `send_request`); a still-pending
future means `asyncio.TimeoutError`, upon which the table entry is deleted
and `HTTPException(504)` raised. -/
def awaitOutcome (prog : SendProgress) (st : BridgeState) : BridgeState × SendOutcome :=
  match prog with
  | .failed code detail => (st, .httpError code detail)
  | .fireAndForget => (st, .notificationSent)
  | .awaiting tok rid =>
    match heapGet st.futures tok with
    | some (.resultF o) => (st, .replyObj o)
    | some (.errorF e) => (st, .uncaught e)
    | _ => ({ st with table := tblRemove st.table rid },
            .httpError 504 "MCP request timed out")

/-- The reader loop (server.py:130-137) processing a batch of stdout lines in
order, each through `_dispatch_response`. -/
def processLines (parse : String → Option JObj) (lines : List String)
    (st : BridgeState) : BridgeState :=
  lines.foldl (fun s l => dispatchResponse parse l s) st

/-- One full `POST /mcp` call (`handle_mcp_request` → `send_request`):
register and write, let the reader loop dispatch the stdout lines that
arrive within the timeout window, then resolve the await. -/
def runRequest (parse : String → Option JObj) (writeOk : Bool) (req : JObj)
    (lines : List String) (st : BridgeState) : BridgeState × SendOutcome :=
  let s := sendRequestStart writeOk req st
  let st2 := processLines parse lines s.st
  awaitOutcome s.prog st2

/-- `MCPProcess.send_message` (server.py:208-220): guard, locked write,
acknowledgement; never touches `response_futures`. -/
def sendMessage (writeOk : Bool) (st : BridgeState) : BridgeState × SendOutcome :=
  if st.proc.isSet then
    if writeOk then (st, .notificationSent)
    else (st, .httpError 500 "write failed")
  else
    (st, .httpError 500 "MCP backend not running")

/-- `Popen.terminate()` as invoked by `stop` (only when `self.process` is
truthy): sends SIGTERM to a running child (modelled by its eventual exit);
on an already-exited child, `send_signal` checks `poll()` and does nothing. -/
def ProcState.terminate : ProcState → ProcState
  | .notStarted => .notStarted
  | .running pid => .exited pid (-15)
  | .exited pid c => .exited pid c

/-- `MCPProcess.stop` (server.py:115-125).  `Except` carries a potential
exception; every path of the source returns normally (`terminate` on an
exited process is a no-op, and cancelling the reader task twice is
harmless), so every branch is `.ok`. -/
def stop (st : BridgeState) : Except String BridgeState :=
  if st.proc.isSet then .ok { st with proc := st.proc.terminate }
  else .ok st

/-- The `/health` probe (server.py:278-282): healthy iff `self.process` is
truthy and `poll()` returns `None`. -/
def healthCheck (st : BridgeState) : Bool :=
  st.proc.isSet && (st.proc.poll).isNone

/-- Python truthiness of `MCP_AUTH_TOKEN` (`os.environ.get` returns `None`
when unset; an empty string is falsy). -/
def pyTruthyStr : Option String → Bool
  | none => false
  | some s => !(s == "")

/-- Python `credentials.credentials == MCP_AUTH_TOKEN` (a string is never
`==` to `None`). -/
def pyStrOptEq (cred : String) : Option String → Bool
  | some s => cred == s
  | none => false

/-- The bearer-token check `verify_token` (server.py:27-30), as a function of
the configured `MCP_AUTH_TOKEN` and the presented credential: raises
`HTTPException(403)` iff the token is truthy and the credential differs;
otherwise returns the credential. -/
def verify_token (tok : Option String) (cred : String) : Except Nat String :=
  if pyTruthyStr tok && !(pyStrOptEq cred tok) then .error 403
  else .ok cred

/-! ### Basic lemmas about the embedded operations -/

theorem pyEq_refl (a : PyVal) : pyEq a a = true := by
  cases a <;> simp [pyEq, PyVal.numVal]

theorem tblLookup_insert_self (t : List (PyVal × Nat)) (k : PyVal) (v : Nat) :
    tblLookup (tblInsert t k v) k = some v := by
  unfold tblInsert
  by_cases h : t.any (fun p => pyEq p.1 k) = true
  · simp only [h, if_true]
    induction t with
    | nil => simp at h
    | cons a t ih =>
      by_cases ha : pyEq a.1 k = true
      · simp [tblLookup, List.find?, ha]
      · have ht : t.any (fun p => pyEq p.1 k) = true := by
          simp only [List.any_cons, ha, Bool.false_or] at h
          exact h
        simpa [tblLookup, List.find?, ha] using ih ht
  · simp only [h, if_false]
    have hnone : t.find? (fun p => pyEq p.1 k) = none := by
      apply List.find?_eq_none.mpr
      intro x hx
      intro hpx
      exact h (List.any_eq_true.mpr ⟨x, hx, hpx⟩)
    simp [tblLookup, List.find?_append, hnone, List.find?, pyEq_refl]

theorem tblLookup_remove_self (t : List (PyVal × Nat)) (k : PyVal) :
    tblLookup (tblRemove t k) k = none := by
  induction t with
  | nil => rfl
  | cons a t ih =>
    by_cases ha : pyEq a.1 k = true
    · simp only [tblRemove, List.filter, ha, Bool.not_true]
      exact ih
    · simp [tblRemove, tblLookup, List.filter, List.find?, ha, ih]

theorem heapGet_set_self (h : List (Nat × FutureState)) (tok : Nat) (v : FutureState)
    (hg : (heapGet h tok).isSome = true) :
    heapGet (heapSet h tok v) tok = some v := by
  induction h with
  | nil => simp [heapGet] at hg
  | cons a h ih =>
    by_cases ha : (a.1 == tok) = true
    · simp [heapGet, heapSet, List.find?, ha]
    · have : (heapGet h tok).isSome = true := by
        simpa [heapGet, List.find?, ha] using hg
      simpa [heapGet, heapSet, List.find?, ha] using ih this

theorem heapGet_set_ne (h : List (Nat × FutureState)) (tok tok' : Nat) (v : FutureState)
    (hne : tok' ≠ tok) :
    heapGet (heapSet h tok v) tok' = heapGet h tok' := by
  induction h with
  | nil => rfl
  | cons a h ih =>
    by_cases ha : (a.1 == tok) = true
    · have h1 : a.1 = tok := by simpa using ha
      have ha' : (a.1 == tok') = false := by
        simp only [h1]
        simpa using fun he => hne he.symm
      simpa [heapGet, heapSet, List.find?, ha, ha'] using ih
    · by_cases hb : (a.1 == tok') = true
      · simp [heapGet, heapSet, List.find?, ha, hb]
      · simpa [heapGet, heapSet, List.find?, ha, hb] using ih

theorem heapGet_append_ne (h : List (Nat × FutureState)) (n : Nat) (f : FutureState)
    (tok : Nat) (hne : tok ≠ n) :
    heapGet (h ++ [(n, f)]) tok = heapGet h tok := by
  induction h with
  | nil => simp [heapGet, List.find?, (by simpa using (Ne.symm hne) : (n == tok) = false)]
  | cons a h ih =>
    by_cases ha : (a.1 == tok) = true
    · simp [heapGet, List.find?, ha]
    · simpa [heapGet, List.find?, ha] using ih

theorem heapGet_append_fresh (h : List (Nat × FutureState)) (n : Nat) (f : FutureState)
    (hwf : ∀ p ∈ h, p.1 < n) :
    heapGet (h ++ [(n, f)]) n = some f := by
  induction h with
  | nil => simp [heapGet, List.find?]
  | cons a h ih =>
    have ha : (a.1 == n) = false := by
      have h1 := hwf a (by simp)
      simpa using Nat.ne_of_lt h1
    have ih' := ih (fun p hp => hwf p (List.mem_cons_of_mem a hp))
    simpa [heapGet, List.find?, ha] using ih'

theorem putQueues_table (line : String) (st : BridgeState) :
    (putQueues line st).table = st.table := rfl

theorem putQueues_futures (line : String) (st : BridgeState) :
    (putQueues line st).futures = st.futures := rfl

theorem dispatch_of_parse_none (parse : String → Option JObj) (line : String)
    (st : BridgeState) (hp : parse line = none) :
    dispatchResponse parse line st = putQueues line st := by
  simp [dispatchResponse, hp]

theorem dispatch_of_no_id (parse : String → Option JObj) (line : String)
    (st : BridgeState) (obj : JObj) (hp : parse line = some obj)
    (hid : obj.getId = none) :
    dispatchResponse parse line st = putQueues line st := by
  simp [dispatchResponse, hp, hid]

theorem dispatch_of_no_entry (parse : String → Option JObj) (line : String)
    (st : BridgeState) (obj : JObj) (y : PyVal) (hp : parse line = some obj)
    (hid : obj.getId = some y) (hl : tblLookup st.table y = none) :
    dispatchResponse parse line st = putQueues line st := by
  simp [dispatchResponse, putQueues, hp, hid, hl]

theorem dispatch_fulfills (parse : String → Option JObj) (line : String)
    (st : BridgeState) (obj : JObj) (y : PyVal) (tok : Nat)
    (hp : parse line = some obj) (hid : obj.getId = some y)
    (hl : tblLookup st.table y = some tok)
    (hf : heapGet st.futures tok = some .pendingF) :
    dispatchResponse parse line st
      = { st with
            queues := st.queues.map (fun q => q ++ [wireLine line]),
            table := tblRemove st.table y,
            futures := heapSet st.futures tok (.resultF obj) } := by
  simp [dispatchResponse, putQueues, hp, hid, hl, hf]

theorem dispatch_preserves_done (parse : String → Option JObj) (line : String)
    (st : BridgeState) (tok : Nat) (f : FutureState)
    (hf : heapGet st.futures tok = some f) (hd : f.done = true) :
    heapGet (dispatchResponse parse line st).futures tok = some f := by
  cases hp : parse line with
  | none => rw [dispatch_of_parse_none parse line st hp]; exact hf
  | some obj =>
    cases hid : obj.getId with
    | none => rw [dispatch_of_no_id parse line st obj hp hid]; exact hf
    | some y =>
      cases hl : tblLookup st.table y with
      | none => rw [dispatch_of_no_entry parse line st obj y hp hid hl]; exact hf
      | some tok2 =>
        cases hg : heapGet st.futures tok2 with
        | none =>
          simp only [dispatchResponse, putQueues, hp, hid, hl, hg]
          exact hf
        | some f2 =>
          cases f2 with
          | pendingF =>
            by_cases htt : tok2 = tok
            · subst htt
              rw [hf] at hg
              cases hg
              simp [FutureState.done] at hd
            · simp only [dispatchResponse, putQueues, hp, hid, hl, hg]
              rw [heapGet_set_ne st.futures tok2 tok (.resultF obj)
                (fun he => htt he.symm)]
              exact hf
          | resultF o =>
            simp only [dispatchResponse, putQueues, hp, hid, hl, hg]
            exact hf
          | errorF e =>
            simp only [dispatchResponse, putQueues, hp, hid, hl, hg]
            exact hf

/-! ### Concrete states and a concrete parse oracle for the closed instances -/

/-- A concrete bridge state: the child is running (pid 42), one request with
id `1` (a Python int) is pending as future token `0`, and one SSE subscriber
with an empty queue is connected. -/
def exPending : BridgeState :=
  ⟨.running 42, [(0, .pendingF)], [(.pyint 1, 0)], [[]], 1⟩

/-- A concrete bridge state: the child is running, nothing pending, one SSE
subscriber with an empty queue. -/
def exFresh : BridgeState :=
  ⟨.running 42, [], [], [[]], 0⟩

/-- A request object carrying the integer id `1` (only the `"id"` field of a
request is ever inspected by the bridge). -/
def exReq : JObj := ⟨[("id", .pyint 1)]⟩

/-- The parsed form of the backend line `\x7b"id": 1\x7d`: `json.loads`
yields the Python int `1` for the literal `1`. -/
def exObjInt : JObj := ⟨[("id", .pyint 1)]⟩

/-- The parsed form of the backend line `\x7b"id": 1.0\x7d`: `json.loads`
yields the Python float `1.0` for the decimal literal `1.0`. -/
def exObjFloat : JObj := ⟨[("id", .pyfloat 1)]⟩

/-- The behaviour of `json.loads` on the three concrete lines used below:
the line with the integer id parses to `exObjInt`, the line with the float
id parses to `exObjFloat`, and every other line (in particular `not json`)
raises `JSONDecodeError`, modelled as `none`. -/
def exParse : String → Option JObj :=
  fun l =>
    if l = "\x7b\"id\": 1\x7d" then some exObjInt
    else if l = "\x7b\"id\": 1.0\x7d" then some exObjFloat
    else none

/-! ### C1 — duplicate id registration -/

/-- C1, counterexample to the claim as stated: with a request with id `1`
already pending (`exPending` maps id `1` to future `0`), registering a
second request with id `1` does not fail with a duplicate-id error — it
succeeds (`awaiting`) — and the Correlation Table entry for id `1` is
changed to point at the new future `1`, so the first pending entry is
disturbed. -/
theorem c1_counterexample :
    tblLookup exPending.table (.pyint 1) = some 0 ∧
    (sendRequestStart true exReq exPending).prog = .awaiting 1 (.pyint 1) ∧
    tblLookup (sendRequestStart true exReq exPending).st.table (.pyint 1) = some 1 := by
  decide

/-- C1, amended: registering a second request whose id `x` already has a
pending entry does not fail; the table entry for `x` is silently replaced
by the new request's future, while the first request's future object itself
is left unchanged in the heap (it is merely orphaned — unreachable from the
table). -/
theorem c1_duplicate_id_overwrites
    (st : BridgeState) (req : JObj) (x : PyVal) (tok0 : Nat)
    (hproc : st.proc.isSet = true) (hid : req.reqId = some x)
    (_hx : tblLookup st.table x = some tok0) (htok : tok0 < st.nextTok) :
    (sendRequestStart true req st).prog = .awaiting st.nextTok x ∧
    tblLookup (sendRequestStart true req st).st.table x = some st.nextTok ∧
    heapGet (sendRequestStart true req st).st.futures tok0 = heapGet st.futures tok0 := by
  refine ⟨?_, ?_, ?_⟩
  · simp [sendRequestStart, hproc, registerStep, hid, writeStep]
  · simp [sendRequestStart, hproc, registerStep, hid, writeStep,
      tblLookup_insert_self]
  · simp only [sendRequestStart, hproc, if_true, registerStep, hid, writeStep]
    exact heapGet_append_ne st.futures st.nextTok .pendingF tok0 (Nat.ne_of_lt htok)

/-- C1 witness: instantiating the amended statement on `exPending`. -/
theorem c1_duplicate_id_overwrites_witness :
    (sendRequestStart true exReq exPending).prog = .awaiting 1 (.pyint 1) ∧
    tblLookup (sendRequestStart true exReq exPending).st.table (.pyint 1) = some 1 ∧
    heapGet (sendRequestStart true exReq exPending).st.futures 0
      = heapGet exPending.futures 0 :=
  c1_duplicate_id_overwrites exPending exReq (.pyint 1) 0
    (by decide) (by decide) (by decide) (by decide)

/-! ### C3 — end-of-stream cleanup -/

/-- C3, counterexample to the claim as stated: on `exPending` (one pending
entry for id `1`), the end-of-stream cleanup leaves the Correlation Table
exactly as it was — the table is not cleared of its entries. -/
theorem c3_counterexample :
    tblLookup exPending.table (.pyint 1) = some 0 ∧
    heapGet exPending.futures 0 = some .pendingF ∧
    (eofCleanup exPending).table = [(.pyint 1, 0)] ∧
    (eofCleanup exPending).table ≠ [] := by
  decide

/-- Helper for C3: every pending future referenced by the table is fulfilled
with the crash exception by the cleanup map. -/
theorem heapGet_cleanupMap (t : List (PyVal × Nat)) (h : List (Nat × FutureState))
    (tok : Nat) (hmem : t.any (fun q => q.2 == tok) = true)
    (hf : heapGet h tok = some .pendingF) :
    heapGet (h.map (fun p =>
      if t.any (fun e => e.2 == p.1) && !(FutureState.done p.2) then
        (p.1, FutureState.errorF "MCP process exited")
      else p)) tok = some (.errorF "MCP process exited") := by
  induction h with
  | nil => simp [heapGet] at hf
  | cons a h ih =>
    by_cases ha : (a.1 == tok) = true
    · have ha1 : a.1 = tok := by simpa using ha
      have ha2 : a.2 = .pendingF := by
        simp only [heapGet, List.find?, ha, Option.map_some] at hf
        simpa using hf
      simp [heapGet, List.find?, ha1, ha2, hmem, FutureState.done]
    · have hrec : heapGet h tok = some FutureState.pendingF := by
        simpa [heapGet, List.find?, ha] using hf
      by_cases hc : (t.any (fun e => e.2 == a.1) && !(FutureState.done a.2)) = true
      · simpa [heapGet, List.find?, hc, ha] using ih hrec
      · simpa [heapGet, List.find?, hc, ha] using ih hrec

/-- C3, amended: when the reader loop observes end-of-stream, every
still-pending future held in the Correlation Table is fulfilled with the
crash exception (so no waiter hangs forever), but the table itself is NOT
cleared — its entries remain. -/
theorem c3_eof_fulfills_pending_keeps_table
    (st : BridgeState) (x : PyVal) (tok : Nat)
    (hx : tblLookup st.table x = some tok)
    (hf : heapGet st.futures tok = some .pendingF) :
    heapGet (eofCleanup st).futures tok = some (.errorF "MCP process exited") ∧
    (eofCleanup st).table = st.table := by
  constructor
  · have hfind : ∃ e, st.table.find? (fun p => pyEq p.1 x) = some e ∧ e.2 = tok := by
      unfold tblLookup at hx
      cases he : st.table.find? (fun p => pyEq p.1 x) with
      | none => rw [he] at hx; simp at hx
      | some e =>
        rw [he] at hx
        simp at hx
        exact ⟨e, rfl, hx⟩
    obtain ⟨e, he, hetok⟩ := hfind
    have hmem : st.table.any (fun q => q.2 == tok) = true := by
      apply List.any_eq_true.mpr
      exact ⟨e, List.mem_of_find?_eq_some he, by simpa using hetok⟩
    exact heapGet_cleanupMap st.table st.futures tok hmem hf
  · rfl

/-- C3 witness: instantiating the amended statement on `exPending`. -/
theorem c3_eof_fulfills_pending_keeps_table_witness :
    heapGet (eofCleanup exPending).futures 0 = some (.errorF "MCP process exited") ∧
    (eofCleanup exPending).table = exPending.table :=
  c3_eof_fulfills_pending_keeps_table exPending (.pyint 1) 0 (by decide) (by decide)

/-! ### C4 — malformed lines -/

/-- C4, counterexample to the claim as stated: the unparseable line
`not json` IS delivered to the connected subscriber's queue (fan-out runs
before the JSON parse in `_dispatch_response`), contradicting both "the
malformed line is not delivered to any Subscriber's queue" and "delivery
happens only after a successful JSON parse". -/
theorem c4_counterexample :
    exParse "not json" = none ∧
    exFresh.queues = [[]] ∧
    (dispatchResponse exParse "not json" exFresh).queues = [["data: not json\n\n"]] := by
  decide

/-- C4, amended: a line that fails to parse as JSON is dropped from the
correlation path — the Correlation Table and every future are untouched, and
the dispatcher returns normally (it never crashes or propagates the line to
a correlated caller) — but the raw line IS first delivered to every
Subscriber's queue, because fan-out precedes the parse. -/
theorem c4_malformed_line_fanout_first
    (parse : String → Option JObj) (line : String) (st : BridgeState)
    (hp : parse line = none) :
    dispatchResponse parse line st = putQueues line st ∧
    (dispatchResponse parse line st).table = st.table ∧
    (dispatchResponse parse line st).futures = st.futures ∧
    (dispatchResponse parse line st).queues
      = st.queues.map (fun q => q ++ [wireLine line]) := by
  have h := dispatch_of_parse_none parse line st hp
  exact ⟨h, by rw [h]; rfl, by rw [h]; rfl, by rw [h]; rfl⟩

/-- C4 witness: instantiating the amended statement on the malformed line. -/
theorem c4_malformed_line_fanout_first_witness :
    dispatchResponse exParse "not json" exFresh = putQueues "not json" exFresh ∧
    (dispatchResponse exParse "not json" exFresh).table = exFresh.table ∧
    (dispatchResponse exParse "not json" exFresh).futures = exFresh.futures ∧
    (dispatchResponse exParse "not json" exFresh).queues
      = exFresh.queues.map (fun q => q ++ [wireLine "not json"]) :=
  c4_malformed_line_fanout_first exParse "not json" exFresh (by decide)

/-! ### C5 — id matching uses Python equality -/

/-- C5, counterexample to the claim as stated: with a request registered
under the Python int `1` (`exPending`), a backend reply whose id is the
float `1.0` — a different type — DOES fulfill the pending entry, because
dict key lookup uses Python `==`, which coerces numerically between int and
float. -/
theorem c5_counterexample :
    tblLookup exPending.table (.pyint 1) = some 0 ∧
    heapGet exPending.futures 0 = some .pendingF ∧
    exParse "\x7b\"id\": 1.0\x7d" = some exObjFloat ∧
    exObjFloat.getId = some (.pyfloat 1) ∧
    heapGet (dispatchResponse exParse "\x7b\"id\": 1.0\x7d" exPending).futures 0
      = some (.resultF exObjFloat) := by
  decide

/-- C5, amended: a pending entry registered under id `x` is fulfilled by a
reply with id `y` exactly when `x == y` by Python equality `pyEq`: a reply
of a non-equal id leaves everything but the SSE queues untouched, while a
`pyEq`-equal id fulfills the entry — so a string reply id never fulfills a
numeric registration, but the float `1.0` does fulfill the int `1`, because
Python coerces numerically across int/float/bool. -/
theorem c5_id_match_is_python_equality
    (parse : String → Option JObj) (line : String) (st : BridgeState)
    (x y : PyVal) (tok : Nat) (obj : JObj)
    (hp : parse line = some obj) (hid : obj.getId = some y)
    (ht : st.table = [(x, tok)])
    (hf : heapGet st.futures tok = some .pendingF) :
    (pyEq x y = false → dispatchResponse parse line st = putQueues line st) ∧
    (pyEq x y = true →
      heapGet (dispatchResponse parse line st).futures tok = some (.resultF obj) ∧
      (dispatchResponse parse line st).table = []) ∧
    pyEq (.pyint 1) (.pystr "1") = false ∧
    pyEq (.pyint 1) (.pyfloat 1) = true := by
  refine ⟨?_, ?_, by decide, by decide⟩
  · intro hne
    apply dispatch_of_no_entry parse line st obj y hp hid
    simp [tblLookup, ht, List.find?, hne]
  · intro heq
    have hl : tblLookup st.table y = some tok := by
      simp [tblLookup, ht, List.find?, heq]
    have hd := dispatch_fulfills parse line st obj y tok hp hid hl hf
    rw [hd]
    constructor
    · exact heapGet_set_self st.futures tok (.resultF obj) (by rw [hf]; rfl)
    · simp [tblRemove, ht, List.filter, heq]

/-- C5 witness: the float reply `1.0` fulfills the int registration `1`,
and a string reply `"1"` would not. -/
theorem c5_id_match_is_python_equality_witness :
    (pyEq (.pyint 1) (.pyfloat 1) = false →
      dispatchResponse exParse "\x7b\"id\": 1.0\x7d" exPending
        = putQueues "\x7b\"id\": 1.0\x7d" exPending) ∧
    (pyEq (.pyint 1) (.pyfloat 1) = true →
      heapGet (dispatchResponse exParse "\x7b\"id\": 1.0\x7d" exPending).futures 0
        = some (.resultF exObjFloat) ∧
      (dispatchResponse exParse "\x7b\"id\": 1.0\x7d" exPending).table = []) ∧
    pyEq (.pyint 1) (.pystr "1") = false ∧
    pyEq (.pyint 1) (.pyfloat 1) = true :=
  c5_id_match_is_python_equality exParse "\x7b\"id\": 1.0\x7d" exPending
    (.pyint 1) (.pyfloat 1) 0 exObjFloat
    (by decide) (by decide) (by decide) (by decide)

/-! ### C2 and C6 — the correlated request/reply round trip -/

/-- Helper: the shape of `send_request`'s register and write phases for a
correlated request when the process is up and the write succeeds. -/
theorem sendRequestStart_ok (req : JObj) (st : BridgeState) (x : PyVal)
    (hproc : st.proc.isSet = true) (hid : req.reqId = some x) :
    sendRequestStart true req st
      = ⟨{ st with
            futures := st.futures ++ [(st.nextTok, .pendingF)],
            table := tblInsert st.table x st.nextTok,
            nextTok := st.nextTok + 1 },
          .awaiting st.nextTok x, [.registered x, .wrote]⟩ := by
  simp [sendRequestStart, hproc, registerStep, hid, writeStep]

/-- C2: a correlated `POST /mcp` round trip.  If the process is up, the
request carries id `x`, the write succeeds, and the backend replies within
the window with a line parsing to
an object whose id field is `x`, then: the caller receives exactly that
parsed object; the Correlation Table no longer holds an entry for `x`; the
request's future holds exactly the parsed object; and a second matching
line dispatched afterwards does not change it (first match wins — the
future is fulfilled exactly once). -/
theorem c2_reply_correlated_exactly_once
    (parse : String → Option JObj) (req : JObj) (st : BridgeState) (x : PyVal)
    (line line2 : String) (obj : JObj)
    (hproc : st.proc.isSet = true) (hid : req.reqId = some x)
    (hwf : ∀ p ∈ st.futures, p.1 < st.nextTok)
    (hp : parse line = some obj) (hoid : obj.getId = some x) :
    (runRequest parse true req [line] st).2 = .replyObj obj ∧
    tblLookup (runRequest parse true req [line] st).1.table x = none ∧
    heapGet (runRequest parse true req [line] st).1.futures st.nextTok
      = some (.resultF obj) ∧
    heapGet (dispatchResponse parse line2 (runRequest parse true req [line] st).1).futures
      st.nextTok = some (.resultF obj) := by
  have hreg := sendRequestStart_ok req st x hproc hid
  set st1 : BridgeState :=
    { st with
        futures := st.futures ++ [(st.nextTok, .pendingF)],
        table := tblInsert st.table x st.nextTok,
        nextTok := st.nextTok + 1 } with hst1
  have hl1 : tblLookup st1.table x = some st.nextTok := by
    rw [hst1]
    exact tblLookup_insert_self st.table x st.nextTok
  have hf1 : heapGet st1.futures st.nextTok = some .pendingF := by
    rw [hst1]
    exact heapGet_append_fresh st.futures st.nextTok .pendingF hwf
  have hdisp := dispatch_fulfills parse line st1 obj x st.nextTok hp hoid hl1 hf1
  have hrun : runRequest parse true req [line] st
      = awaitOutcome (.awaiting st.nextTok x) (dispatchResponse parse line st1) := by
    simp [runRequest, hreg, processLines]
  have hfut : heapGet (dispatchResponse parse line st1).futures st.nextTok
      = some (.resultF obj) := by
    rw [hdisp]
    exact heapGet_set_self st1.futures st.nextTok (.resultF obj) (by rw [hf1]; rfl)
  have hawait : awaitOutcome (.awaiting st.nextTok x) (dispatchResponse parse line st1)
      = (dispatchResponse parse line st1, .replyObj obj) := by
    simp [awaitOutcome, hfut]
  refine ⟨?_, ?_, ?_, ?_⟩
  · rw [hrun, hawait]
  · rw [hrun, hawait]
    simp only [hdisp]
    exact tblLookup_remove_self st1.table x
  · rw [hrun, hawait]
    exact hfut
  · rw [hrun, hawait]
    exact dispatch_preserves_done parse line2 (dispatchResponse parse line st1)
      st.nextTok (.resultF obj) hfut rfl

/-- C2 witness: the concrete round trip on a fresh state with the integer
id `1` and the backend line parsing to the same id. -/
theorem c2_reply_correlated_exactly_once_witness :
    (runRequest exParse true exReq ["\x7b\"id\": 1\x7d"] exFresh).2
      = .replyObj exObjInt ∧
    tblLookup (runRequest exParse true exReq ["\x7b\"id\": 1\x7d"] exFresh).1.table
      (.pyint 1) = none ∧
    heapGet (runRequest exParse true exReq ["\x7b\"id\": 1\x7d"] exFresh).1.futures 0
      = some (.resultF exObjInt) ∧
    heapGet (dispatchResponse exParse "\x7b\"id\": 1\x7d"
        (runRequest exParse true exReq ["\x7b\"id\": 1\x7d"] exFresh).1).futures 0
      = some (.resultF exObjInt) :=
  c2_reply_correlated_exactly_once exParse exReq exFresh (.pyint 1)
    "\x7b\"id\": 1\x7d" "\x7b\"id\": 1\x7d" exObjInt
    (by decide) (by decide) (by decide) (by decide) (by decide)

/-- C6: a correlated request that receives no reply within the timeout
window fails with the 504 gateway-timeout error, the entry for its id is
removed from the Correlation Table, and a matching reply arriving after the
timeout no longer changes any future (it cannot be fulfilled late). -/
theorem c6_timeout_removes_entry
    (parse : String → Option JObj) (req : JObj) (st : BridgeState) (x : PyVal)
    (line2 : String) (obj2 : JObj)
    (hproc : st.proc.isSet = true) (hid : req.reqId = some x)
    (hwf : ∀ p ∈ st.futures, p.1 < st.nextTok)
    (hp2 : parse line2 = some obj2) (hid2 : obj2.getId = some x) :
    (runRequest parse true req [] st).2 = .httpError 504 "MCP request timed out" ∧
    tblLookup (runRequest parse true req [] st).1.table x = none ∧
    (dispatchResponse parse line2 (runRequest parse true req [] st).1).futures
      = (runRequest parse true req [] st).1.futures := by
  have hreg := sendRequestStart_ok req st x hproc hid
  set st1 : BridgeState :=
    { st with
        futures := st.futures ++ [(st.nextTok, .pendingF)],
        table := tblInsert st.table x st.nextTok,
        nextTok := st.nextTok + 1 } with hst1
  have hf1 : heapGet st1.futures st.nextTok = some .pendingF := by
    rw [hst1]
    exact heapGet_append_fresh st.futures st.nextTok .pendingF hwf
  have hrun : runRequest parse true req [] st
      = ({ st1 with table := tblRemove st1.table x },
          .httpError 504 "MCP request timed out") := by
    simp [runRequest, hreg, processLines, awaitOutcome, hf1]
  have hlook : tblLookup (tblRemove st1.table x) x = none :=
    tblLookup_remove_self st1.table x
  refine ⟨?_, ?_, ?_⟩
  · rw [hrun]
  · rw [hrun]
    exact hlook
  · rw [hrun]
    have := dispatch_of_no_entry parse line2 { st1 with table := tblRemove st1.table x }
      obj2 x hp2 hid2 hlook
    rw [this]
    rfl

/-- C6 witness: the concrete timeout on a fresh state — no line arrives, the
caller gets 504, the table is empty for id `1`, and a late matching reply
changes no future. -/
theorem c6_timeout_removes_entry_witness :
    (runRequest exParse true exReq [] exFresh).2
      = .httpError 504 "MCP request timed out" ∧
    tblLookup (runRequest exParse true exReq [] exFresh).1.table (.pyint 1) = none ∧
    (dispatchResponse exParse "\x7b\"id\": 1\x7d"
        (runRequest exParse true exReq [] exFresh).1).futures
      = (runRequest exParse true exReq [] exFresh).1.futures :=
  c6_timeout_removes_entry exParse exReq exFresh (.pyint 1)
    "\x7b\"id\": 1\x7d" exObjInt
    (by decide) (by decide) (by decide) (by decide) (by decide)

/-! ### C7 — backend unavailable -/

/-- C7: if the child process was never started, `send_request` and
`send_message` fail with a 500 server error and leave the state untouched
(nothing was registered for this message); if the process is set but the
stdin write fails, `send_request` fails with a 500 server error and the
just-registered entry for the request's id is removed from the Correlation
Table (no leak), and `send_message` fails with a 500 without touching the
state.  All outcomes are handled `HTTPException`s: the bridge itself does
not crash. -/
theorem c7_backend_unavailable
    (st : BridgeState) (req : JObj) (x : PyVal) (hid : req.reqId = some x) :
    (st.proc.isSet = false →
      sendRequestStart false req st
        = ⟨st, .failed 500 "MCP backend not running", []⟩ ∧
      sendMessage false st = (st, .httpError 500 "MCP backend not running")) ∧
    (st.proc.isSet = true →
      (sendRequestStart false req st).prog = .failed 500 "write failed" ∧
      tblLookup (sendRequestStart false req st).st.table x = none ∧
      sendMessage false st = (st, .httpError 500 "write failed")) := by
  constructor
  · intro h
    constructor
    · simp [sendRequestStart, h]
    · simp [sendMessage, h]
  · intro h
    refine ⟨?_, ?_, ?_⟩
    · simp [sendRequestStart, h, registerStep, hid, writeStep]
    · simp [sendRequestStart, h, registerStep, hid, writeStep,
        tblLookup_remove_self]
    · simp [sendMessage, h]

/-- C7 witness: instantiating on a running process and the write failing. -/
theorem c7_backend_unavailable_witness :
    (exFresh.proc.isSet = false →
      sendRequestStart false exReq exFresh
        = ⟨exFresh, .failed 500 "MCP backend not running", []⟩ ∧
      sendMessage false exFresh = (exFresh, .httpError 500 "MCP backend not running")) ∧
    (exFresh.proc.isSet = true →
      (sendRequestStart false exReq exFresh).prog = .failed 500 "write failed" ∧
      tblLookup (sendRequestStart false exReq exFresh).st.table (.pyint 1) = none ∧
      sendMessage false exFresh = (exFresh, .httpError 500 "write failed")) :=
  c7_backend_unavailable exFresh exReq (.pyint 1) (by decide)

/-! ### C8 — entry registered before the write -/

/-- C8: for a correlated request, the Correlation Table entry exists before
the write to the child's stdin: `send_request` is the write step applied to
the output of the registration step, the state handed to the write step
already maps the request's id to the new future, and in the recorded event
trace the registration strictly precedes the write. -/
theorem c8_table_entry_before_write
    (st : BridgeState) (req : JObj) (x : PyVal) (writeOk : Bool)
    (hproc : st.proc.isSet = true) (hid : req.reqId = some x) :
    tblLookup (registerStep req st).1.table x = some st.nextTok ∧
    sendRequestStart writeOk req st
      = writeStep writeOk (registerStep req st).2 (registerStep req st).1 ∧
    (writeOk = true →
      ∃ i j, i < j ∧
        (sendRequestStart writeOk req st).trace.get? i = some (.registered x) ∧
        (sendRequestStart writeOk req st).trace.get? j = some .wrote) := by
  refine ⟨?_, ?_, ?_⟩
  · simp [registerStep, hid, tblLookup_insert_self]
  · simp [sendRequestStart, hproc]
  · intro hw
    subst hw
    refine ⟨0, 1, Nat.zero_lt_one, ?_, ?_⟩ <;>
      simp [sendRequestStart, hproc, registerStep, hid, writeStep]

/-- C8 witness: instantiating on a fresh running state. -/
theorem c8_table_entry_before_write_witness :
    tblLookup (registerStep exReq exFresh).1.table (.pyint 1) = some 0 ∧
    sendRequestStart true exReq exFresh
      = writeStep true (registerStep exReq exFresh).2 (registerStep exReq exFresh).1 ∧
    (True = True →
      ∃ i j, i < j ∧
        (sendRequestStart true exReq exFresh).trace.get? i
          = some (.registered (.pyint 1)) ∧
        (sendRequestStart true exReq exFresh).trace.get? j = some .wrote) := by
  have h := c8_table_entry_before_write exFresh exReq (.pyint 1) true
    (by decide) (by decide)
  exact ⟨h.1, h.2.1, fun _ => h.2.2 rfl⟩

/-! ### C9 — stop is idempotent -/

/-- C9: `stop` is idempotent: whatever the first invocation left behind, a
second invocation returns without error and changes nothing, and the
`/health` liveness probe reports not-alive afterwards. -/
theorem c9_stop_idempotent (st st1 : BridgeState) (h : stop st = .ok st1) :
    stop st1 = .ok st1 ∧ healthCheck st1 = false := by
  cases hp : st.proc with
  | notStarted =>
    have h1 : st1 = st := by
      simp [stop, hp, ProcState.isSet] at h
      exact h.symm
    subst h1
    exact ⟨by simp [stop, hp, ProcState.isSet],
      by simp [healthCheck, hp, ProcState.isSet]⟩
  | running pid =>
    have h1 : st1 = { st with proc := .exited pid (-15) } := by
      simp [stop, hp, ProcState.isSet, ProcState.terminate] at h
      exact h.symm
    subst h1
    exact ⟨by simp [stop, ProcState.isSet, ProcState.terminate],
      by simp [healthCheck, ProcState.isSet, ProcState.poll]⟩
  | exited pid c =>
    have h1 : st1 = { st with proc := .exited pid c } := by
      simp [stop, hp, ProcState.isSet, ProcState.terminate] at h
      exact h.symm
    subst h1
    exact ⟨by simp [stop, ProcState.isSet, ProcState.terminate],
      by simp [healthCheck, ProcState.isSet, ProcState.poll]⟩

/-- C9 witness: a state whose child has already exited. -/
theorem c9_stop_idempotent_witness :
    stop (⟨.exited 7 0, [], [], [], 0⟩ : BridgeState)
      = .ok (⟨.exited 7 0, [], [], [], 0⟩ : BridgeState) ∧
    healthCheck (⟨.exited 7 0, [], [], [], 0⟩ : BridgeState) = false :=
  c9_stop_idempotent ⟨.exited 7 0, [], [], [], 0⟩ ⟨.exited 7 0, [], [], [], 0⟩ rfl

/-! ### C10 — no configured token accepts every credential -/

/-- C10: when `MCP_AUTH_TOKEN` is unset (`none`) or empty (falsy), the token
check accepts every presented bearer credential: `verify_token` returns the
credential unchanged for every credential value.  (A bearer header must
still be supplied — `HTTPBearer` enforces that before `verify_token` runs —
but its value goes unchecked.) -/
theorem c10_no_token_accepts_every_credential
    (tok : Option String) (cred : String) (h : pyTruthyStr tok = false) :
    verify_token tok cred = .ok cred := by
  simp [verify_token, h]

/-- C10 witness: an empty configured token accepts an arbitrary guess. -/
theorem c10_no_token_accepts_every_credential_witness :
    pyTruthyStr (some "") = false ∧
    verify_token (some "") "any-guess" = .ok "any-guess" :=
  ⟨by decide, c10_no_token_accepts_every_credential (some "") "any-guess" (by decide)⟩

end MCPProxy
